import Mathlib

/-!
Verification of the Inversion-DNSBL-Generator sources against their
natural-language specification.

The embedding translates the Python sources:
  * `src/modules/feeds/icann.py` — streaming zone-file decoder
    (`extract_zonefile_urls`), authentication (`_authenticate`), endpoint
    discovery (`_get_approved_endpoints`), batch drain (`_get_icann_domains`)
    and `ICANN.__init__`;
  * `src/main.py` — the merge of the two vendor verdict lists;
  * `src/modules/utils/github.py` — `upload_blocklists`.

Python strings are modelled as `List Char`; machine-level concerns
(decompression itself) are abstracted to the per-chunk decoded text the code
observes, since `zlib.decompressobj` is a streaming homomorphism: the
concatenation of the per-chunk outputs is the decompression of the whole
stream.
-/

/-- Python whitespace recognised by `str.split()` with no separator, restricted
to the ASCII whitespace characters occurring in zone-file data. -/
def pyIsSpace (c : Char) : Bool :=
  c == ' ' || c == '\t' || c == '\n' || c == '\r' || c == '\x0b' || c == '\x0c'

/-- Python `str.lower`, character by character. -/
def pyLower (s : List Char) : List Char :=
  s.map Char.toLower

/-- Python `str.rstrip(".")`: remove every trailing dot. -/
def rstripDots (s : List Char) : List Char :=
  (s.reverse.dropWhile (fun c => c == '.')).reverse

/-- Accumulating worker for `pySplit`: `acc` holds the reversed current word. -/
def pySplitGo (acc : List Char) : List Char → List (List Char)
  | [] => if acc.isEmpty then [] else [acc.reverse]
  | c :: rest =>
    if pyIsSpace c then
      if acc.isEmpty then pySplitGo [] rest else acc.reverse :: pySplitGo [] rest
    else pySplitGo (c :: acc) rest

/-- Python `str.split()` with no separator: split on runs of whitespace and
drop empty words. -/
def pySplit (s : List Char) : List (List Char) :=
  pySplitGo [] s

/-- Python line-boundary characters recognised by `str.splitlines`, besides the
two-character boundary carriage-return line-feed. -/
def isLineBoundary (c : Char) : Bool :=
  c == '\n' || c == '\r' || c == '\x0b' || c == '\x0c' ||
    c == '\x1c' || c == '\x1d' || c == '\x1e' || c == '\x85' ||
    c == '\u2028' || c == '\u2029'

/-- Accumulating worker for `splitlinesPy`: `acc` holds the reversed current
line. A trailing line boundary opens no further empty line, exactly as in
Python, where a final complete line and a final incomplete line are
indistinguishable in the output. -/
def splitlinesGo (acc : List Char) : List Char → List (List Char)
  | [] => [acc.reverse]
  | '\r' :: '\n' :: rest =>
    acc.reverse :: (if rest.isEmpty then [] else splitlinesGo [] rest)
  | c :: rest =>
    if isLineBoundary c then
      acc.reverse :: (if rest.isEmpty then [] else splitlinesGo [] rest)
    else splitlinesGo (c :: acc) rest

/-- Python `str.splitlines`. -/
def splitlinesPy (s : List Char) : List (List Char) :=
  if s.isEmpty then [] else splitlinesGo [] s

/-- One comprehension filter of `extract_zonefile_urls` (icann.py line 153):
`(splitted_line := line.split()) and (url := splitted_line[0].lower().rstrip("."))`
— the first whitespace-delimited token, lowercased, with all trailing dots
removed; `none` when the line has no token or the token becomes empty. -/
def tokenOfLine (line : List Char) : Option (List Char) :=
  match pySplit line with
  | [] => none
  | w :: _ =>
    let url := rstripDots (pyLower w)
    if url = [] then none else some url

/-- One iteration of the chunk loop of `extract_zonefile_urls` (icann.py lines
139-153): prepend the pending `last_line`, split into lines, pop the final
line as the new pending tail, and emit the tokens of the remaining lines.
`none` models the `IndexError` raised by `lines.pop()` when the combined
string is empty, so `splitlines` returns the empty list. -/
def decodeStep (pending chunk : List Char) :
    Option (List Char × List (List Char)) :=
  let lines := splitlinesPy (pending ++ chunk)
  match lines.getLast? with
  | none => none
  | some lastLine => some (lastLine, lines.dropLast.filterMap tokenOfLine)

/-- The chunk loop of `extract_zonefile_urls` followed by the final flush of
`last_line` (icann.py lines 155-158), over the decoded text of each incoming
chunk; the emitted batches are concatenated into one ordered token sequence. -/
def decodeRun : List Char → List (List Char) → Option (List (List Char))
  | pending, [] => some ([pending].filterMap tokenOfLine)
  | pending, chunk :: rest =>
    match decodeStep pending chunk with
    | none => none
    | some (lastLine, toks) => (decodeRun lastLine rest).map (fun out => toks ++ out)

/-- The streaming decoder `extract_zonefile_urls` (icann.py lines 114-158)
applied to a stream delivered as the given chunks, starting from an empty
pending line. -/
def extract_zonefile_urls (chunks : List (List Char)) : Option (List (List Char)) :=
  decodeRun [] chunks

/-- C1: the ordered token sequence is not invariant under chunk splitting. A
stream whose decoded text is two complete lines delivered as one chunk each is
decoded as the single glued token, while the whole stream at once yields the
two tokens; and a chunk that decodes to nothing while no line is pending
raises (the `IndexError` of `lines.pop()` on an empty list), as happens with
one-byte chunks inside the gzip header. -/
theorem c1_chunk_boundary_violation :
    extract_zonefile_urls ["b\n".data, "c\n".data] = some ["bc".data] ∧
    extract_zonefile_urls ["b\nc\n".data] = some ["b".data, "c".data] ∧
    extract_zonefile_urls [[], "a\n".data] = none ∧
    extract_zonefile_urls ["a\n".data] = some ["a".data] := by
  decide

/-- First whitespace-delimited token of a line, written directly as the spec
describes it: skip leading whitespace, then take the maximal run of
non-whitespace characters. -/
def firstTokenSpec (line : List Char) : List Char :=
  (line.dropWhile (fun c => pyIsSpace c)).takeWhile (fun c => !pyIsSpace c)

/-- The transform the spec asks for on the token: strip a single trailing dot
if one is present. -/
def stripOneTrailingDot (s : List Char) : List Char :=
  if s.getLast? = some '.' then s.dropLast else s

/-- C2, counterexample: on the line `a..` the decoder emits `a`, while the
token obtained by stripping exactly one trailing dot from the lowercased
first token is `a.` — the code strips every trailing dot, not a single one. -/
theorem c2_counterexample :
    tokenOfLine "a..".data = some "a".data ∧
    stripOneTrailingDot (pyLower (firstTokenSpec "a..".data)) = "a.".data ∧
    "a".data ≠ "a.".data := by
  decide

theorem pySplitGo_cons (s : List Char) :
    ∀ acc : List Char, acc ≠ [] →
      pySplitGo acc s =
        (acc.reverse ++ s.takeWhile (fun c => !pyIsSpace c)) ::
          pySplit (s.dropWhile (fun c => !pyIsSpace c)) := by
  induction s with
  | nil =>
    intro acc h
    simp [pySplitGo, pySplit, List.isEmpty_iff, h]
  | cons c rest ih =>
    intro acc h
    by_cases hc : pyIsSpace c
    · simp [pySplitGo, pySplit, hc, List.isEmpty_iff, h]
    · have := ih (c :: acc) (by simp)
      simp only [pySplitGo, hc, List.isEmpty_iff]
      simp [this, hc]

theorem pySplit_head (s : List Char) :
    (pySplit s = [] ∧ firstTokenSpec s = []) ∨
      ∃ tl, pySplit s = firstTokenSpec s :: tl := by
  induction s with
  | nil => exact Or.inl ⟨rfl, rfl⟩
  | cons c rest ih =>
    by_cases hc : pyIsSpace c
    · have h1 : pySplit (c :: rest) = pySplit rest := by
        simp [pySplit, pySplitGo, hc]
      have h2 : firstTokenSpec (c :: rest) = firstTokenSpec rest := by
        simp [firstTokenSpec, hc]
      rw [h1, h2]; exact ih
    · right
      have h1 : pySplit (c :: rest) = pySplitGo [c] rest := by
        simp [pySplit, pySplitGo, hc]
      have h2 := pySplitGo_cons rest [c] (by simp)
      have h3 : firstTokenSpec (c :: rest) =
          c :: rest.takeWhile (fun c => !pyIsSpace c) := by
        simp [firstTokenSpec, hc]
      exact ⟨pySplit (rest.dropWhile (fun c => !pyIsSpace c)), by
        rw [h1, h2, h3]; simp⟩

/-- C2 (amended): for every line, the decoder emits exactly the first
whitespace-delimited token lowercased with ALL trailing dots stripped, and
discards the line (emitting nothing) when that token is empty. -/
theorem c2_token_normalisation (line : List Char) :
    tokenOfLine line =
      (if rstripDots (pyLower (firstTokenSpec line)) = [] then none
       else some (rstripDots (pyLower (firstTokenSpec line)))) := by
  rcases pySplit_head line with ⟨h1, h2⟩ | ⟨tl, h1⟩
  · simp [tokenOfLine, h1, h2, pyLower, rstripDots]
  · simp [tokenOfLine, h1]

/-- One field lookup in a parsed JSON object, modelling Python dict access on
`json.loads(resp[0][1])`; string-valued fields suffice for the token body. -/
def lookupField (body : List (String × String)) (k : String) : Option String :=
  (body.find? (fun kv => kv.1 == k)).map (fun kv => kv.2)

/-- Observable result of `_authenticate` (icann.py lines 42-47): whether the
error `Failed to authenticate ICANN user` is logged (the field is absent), and
the returned token `body.get("accessToken", "")`. -/
def authenticateResult (body : List (String × String)) : Bool × String :=
  ((lookupField body "accessToken").isNone, (lookupField body "accessToken").getD "")

/-- Authorization header value used by `_get_approved_endpoints` and
`_get_icann_domains` (icann.py lines 69 and 102). -/
def authorizationHeader (accessToken : String) : String :=
  "Bearer " ++ accessToken

/-- C3, counterexample: on a body without the token field, `_authenticate`
logs the failure but returns the empty string as the token, and that empty
string flows into the Authorization header of subsequent requests — no
distinguishable error value is signalled. -/
theorem c3_counterexample :
    authenticateResult [("message", "bad credentials")] = (true, "") ∧
    authorizationHeader (authenticateResult [("message", "bad credentials")]).2 =
      "Bearer " := by
  constructor
  · decide
  · decide

/-- C3 (amended): whenever the parsed body lacks the token field, the
authenticate operation logs an error and returns the empty string as the
token; the failure is signalled only through the log, never as a
distinguishable error result. -/
theorem c3_missing_token_result (body : List (String × String))
    (h : lookupField body "accessToken" = none) :
    authenticateResult body = (true, "") := by
  simp [authenticateResult, h]

theorem c3_missing_token_result_witness :
    authenticateResult [("message", "bad credentials")] = (true, "") :=
  c3_missing_token_result [("message", "bad credentials")] (by decide)

/-- One unit of ingestion work built by `ICANN.__init__` (icann.py lines
179-187): the database filename, the zone-file endpoint, and the access token
captured at construction time. -/
structure IcannJob where
  dbFilename : String
  endpoint : String
  accessToken : String
  deriving DecidableEq

/-- HTTP headers sent by `_get_icann_domains` for a zone-file download
(icann.py lines 96-103): built unconditionally from the stored token. -/
def icannRequestHeaders (accessToken : String) : List (String × String) :=
  [("Content-Type", "application/json"),
   ("Connection", "keep-alive"),
   ("Cache-Control", "no-cache"),
   ("Accept", "text/event-stream"),
   ("Accept-Encoding", "gzip"),
   ("Authorization", authorizationHeader accessToken)]

/-- What a job execution can do with its credential: attempt the download
request with some headers, or reject the credential as stale. -/
inductive FeedAttempt where
  | request (headers : List (String × String))
  | rejectedStale
  deriving DecidableEq

/-- Job execution as the scheduler would run it at wall-clock hour `nowHours`
for a token issued at hour `issuedAtHours`. The embedding threads the clock,
but the source (`_get_icann_domains`, icann.py lines 81-111) never reads it:
the request is always attempted with the stored token of the job. -/
def icannAttemptAt (_issuedAtHours _nowHours : Nat) (job : IcannJob) : FeedAttempt :=
  FeedAttempt.request (icannRequestHeaders job.accessToken)

/-- Parsed body of the endpoint-listing response of
`_get_approved_endpoints`: either a JSON list of endpoint strings, or
anything else. -/
inductive LinksBody where
  | list (endpoints : List String)
  | nonList
  deriving DecidableEq

/-- From `_get_approved_endpoints` (icann.py lines 74-78): a non-list body
logs `No user-accessible zone files found.` and yields the empty list. The
first component is the endpoint list, the second whether the warning was
logged. -/
def getApprovedEndpoints : LinksBody → List String × Bool
  | LinksBody.list es => (es, false)
  | LinksBody.nonList => ([], true)

/-- Worker for `splitOnChar`: `acc` holds the reversed current piece. -/
def splitOnCharGo (sep : Char) (acc : List Char) : List Char → List (List Char)
  | [] => [acc.reverse]
  | c :: rest =>
    if c == sep then acc.reverse :: splitOnCharGo sep [] rest
    else splitOnCharGo sep (c :: acc) rest

/-- Python `str.split(sep)` (equally `str.rsplit(sep)` with no maxsplit) for a
one-character separator: empty pieces are kept. -/
def splitOnChar (sep : Char) (s : List Char) : List (List Char) :=
  splitOnCharGo sep [] s

/-- Python `url.rsplit('/', 1)[-1]`: the part after the last slash, or the
whole string when it has none. -/
def afterLastSlash (s : List Char) : List Char :=
  (s.reverse.takeWhile (fun c => c != '/')).reverse

/-- From `ICANN.__init__` (icann.py line 176):
`f"icann_{url.rsplit('/', 1)[-1].rsplit('.')[-2]}"`. `none` models the
`IndexError` when the final path component contains no dot. -/
def dbFilenameOf (url : String) : Option String :=
  match (splitOnChar '.' (afterLastSlash url.data)).reverse with
  | _ :: secondLast :: _ => some ("icann_" ++ String.mk secondLast)
  | _ => none

/-- Observable state built by `ICANN.__init__` (icann.py lines 166-187). -/
structure IcannState where
  dbFilenames : List String
  jobs : List IcannJob
  loggedNoZonefiles : Bool
  deriving DecidableEq

/-- The list comprehension over endpoints building the database filenames
(icann.py line 176): fails as soon as one endpoint makes `dbFilenameOf`
raise. -/
def dbFilenamesOf : List String → Option (List String)
  | [] => some []
  | u :: rest =>
    match dbFilenameOf u, dbFilenamesOf rest with
    | some d, some ds => some (d :: ds)
    | _, _ => none

/-- From `ICANN.__init__` (icann.py lines 166-187), given the token returned
by `_authenticate` and the parsed endpoint-listing body: build the database
filenames always, and the job list only under the fetch flag. `none` models
the `IndexError` raised while building a database filename. -/
def icannInit (sources : List String) (fetch : Bool) (accessToken : String)
    (linksBody : LinksBody) : Option IcannState :=
  if "icann" ∈ sources then
    match dbFilenamesOf (getApprovedEndpoints linksBody).1 with
    | none => none
    | some dbFilenames =>
      some ⟨dbFilenames,
        if fetch then
          (dbFilenames.zip (getApprovedEndpoints linksBody).1).map
            (fun de => ⟨de.1, de.2, accessToken⟩)
        else [],
        (getApprovedEndpoints linksBody).2⟩
  else some ⟨[], [], false⟩

/-- C7, counterexample: a job whose token was issued at hour 0 and which runs
at hour 25 — outside the 24-hour validity window — still attempts the
download request with that token; nothing is rejected as stale and no
re-authentication happens. -/
theorem c7_counterexample :
    icannAttemptAt 0 25 ⟨"icann_com", "https://e/com.zone", "tok"⟩ =
      FeedAttempt.request (icannRequestHeaders "tok") ∧
    FeedAttempt.request (icannRequestHeaders "tok") ≠ FeedAttempt.rejectedStale ∧
    24 < 25 := by
  refine ⟨rfl, by decide, by decide⟩

/-- C7 (amended): every job constructed by `ICANN.__init__` stores the
construction-time token, and executing it at any wall-clock time attempts the
request with exactly that token — the code contains no expiry check and never
re-authenticates, whatever the age of the credential. -/
theorem c7_token_reuse (sources : List String) (fetch : Bool)
    (accessToken : String) (linksBody : LinksBody) (st : IcannState)
    (job : IcannJob) (issuedAtHours nowHours : Nat)
    (hinit : icannInit sources fetch accessToken linksBody = some st)
    (hjob : job ∈ st.jobs) :
    job.accessToken = accessToken ∧
    icannAttemptAt issuedAtHours nowHours job =
      FeedAttempt.request (icannRequestHeaders accessToken) := by
  have htok : job.accessToken = accessToken := by
    by_cases hs : "icann" ∈ sources
    · rw [icannInit, if_pos hs] at hinit
      rcases hm : dbFilenamesOf (getApprovedEndpoints linksBody).1 with _ | dbfs
      · rw [hm] at hinit; exact absurd hinit (by simp)
      · rw [hm] at hinit
        have hst := Option.some.inj hinit
        rw [← hst] at hjob
        by_cases hf : fetch
        · simp only [hf, if_pos] at hjob
          rcases List.mem_map.mp hjob with ⟨de, _, hde⟩
          rw [← hde]
        · simp [hf] at hjob
    · rw [icannInit, if_neg hs] at hinit
      have hst := Option.some.inj hinit
      rw [← hst] at hjob
      simp at hjob
  exact ⟨htok, by rw [icannAttemptAt, htok]⟩

theorem c7_token_reuse_witness :
    IcannJob.accessToken ⟨"icann_com", "https://e/com.zone", "tok"⟩ = "tok" ∧
    icannAttemptAt 0 25 ⟨"icann_com", "https://e/com.zone", "tok"⟩ =
      FeedAttempt.request (icannRequestHeaders "tok") :=
  c7_token_reuse ["icann"] true "tok" (LinksBody.list ["https://e/com.zone"])
    ⟨["icann_com"], [⟨"icann_com", "https://e/com.zone", "tok"⟩], false⟩
    ⟨"icann_com", "https://e/com.zone", "tok"⟩ 0 25 (by decide) (by decide)

/-- C8: when discovery finds no accessible endpoints — the listing body is
not a list, or is the empty list — `ICANN.__init__` completes normally with
an empty job list and empty filename list, logging the warning exactly in the
non-list case. -/
theorem c8_empty_discovery (sources : List String) (fetch : Bool)
    (accessToken : String) (linksBody : LinksBody)
    (h : linksBody = LinksBody.nonList ∨ linksBody = LinksBody.list []) :
    ∃ st : IcannState,
      icannInit sources fetch accessToken linksBody = some st ∧
      st.jobs = [] ∧ st.dbFilenames = [] ∧
      st.loggedNoZonefiles =
        (decide (linksBody = LinksBody.nonList) && decide ("icann" ∈ sources)) := by
  by_cases hs : "icann" ∈ sources
  · rcases h with h | h <;> subst h
    · exact ⟨⟨[], [], true⟩,
        by simp [icannInit, hs, getApprovedEndpoints, dbFilenamesOf], rfl, rfl,
        by simp [hs]⟩
    · exact ⟨⟨[], [], false⟩,
        by simp [icannInit, hs, getApprovedEndpoints, dbFilenamesOf], rfl, rfl,
        by simp [hs]⟩
  · rcases h with h | h <;> subst h <;>
      exact ⟨⟨[], [], false⟩, by simp [icannInit, hs], rfl, rfl, by simp [hs]⟩

theorem c8_empty_discovery_witness :
    ∃ st : IcannState,
      icannInit ["icann"] true "tok" LinksBody.nonList = some st ∧
      st.jobs = [] ∧ st.dbFilenames = [] ∧
      st.loggedNoZonefiles =
        (decide (LinksBody.nonList = LinksBody.nonList) &&
          decide ("icann" ∈ ["icann"])) :=
  c8_empty_discovery ["icann"] true "tok" LinksBody.nonList (Or.inl rfl)

/-- Modelled from the spec: `generate_hostname_expressions`
(modules/utils/feeds.py, not under src/) — one decoded batch becomes a set of
normalized hostnames, deduplicated within the batch. -/
def generate_hostname_expressions (batch : List String) : Finset String :=
  batch.toFinset

/-- Observable behaviour of one drain of `_get_icann_domains`. -/
structure DrainResult where
  emitted : List (Finset String)
  surfacedToCaller : Bool
  loggedWarning : Bool
  deriving DecidableEq

/-- From `_get_icann_domains` (icann.py lines 106-111): drain the underlying
generator, wrapping every batch; `corruptMid` says the generator raises after
producing `batches`. The `except` clause catches the exception, logs the
warning, yields one final empty set, and the stream ends; nothing reaches the
caller as an error. -/
def getIcannDomains (batches : List (List String)) (corruptMid : Bool) : DrainResult :=
  ⟨batches.map generate_hostname_expressions ++ (if corruptMid then [∅] else []),
    false, corruptMid⟩

/-- C5, counterexample: when decompression fails after one batch, the drain
emits that batch and then one empty set, and no distinct corrupt-stream
condition reaches the caller — the exception is swallowed. -/
theorem c5_counterexample :
    (getIcannDomains [["a"]] true).surfacedToCaller = false ∧
    (getIcannDomains [["a"]] true).emitted = [{"a"}, ∅] := by
  constructor
  · rfl
  · decide

/-- C5 (amended): on a mid-stream failure the batches already produced are
emitted unchanged (not retracted), everything after them is the single empty
batch, the warning is logged, and no distinct error condition is surfaced to
the caller. -/
theorem c5_drain_on_corruption (batches : List (List String)) :
    (getIcannDomains batches true).emitted.take batches.length =
        batches.map generate_hostname_expressions ∧
    (∀ b ∈ (getIcannDomains batches true).emitted.drop batches.length, b = ∅) ∧
    (getIcannDomains batches true).surfacedToCaller = false ∧
    (getIcannDomains batches true).loggedWarning = true := by
  refine ⟨?_, ?_, rfl, rfl⟩
  · show ((batches.map generate_hostname_expressions) ++ [∅]).take batches.length = _
    rw [List.take_left' (by rw [List.length_map])]
  · show ∀ b ∈ ((batches.map generate_hostname_expressions) ++ [∅]).drop batches.length, b = ∅
    rw [List.drop_left' (by rw [List.length_map])]
    simp

/-- One batched request of a vendor in the lookup pipeline. Modelled from the
spec: `SafeBrowsing.get_malicious_URLs` (safebrowsing.py, not under src/)
partitions the candidates into batches; a batch request either fails
(`response = none`) or returns the flagged subset of that batch. -/
structure VendorBatch where
  batch : List String
  response : Option (List String)

/-- Modelled from the spec: one vendor VerdictSet — the flagged subsets of
the successful batch responses, combined; a failed batch contributes
nothing. -/
def vendorVerdicts (results : List VendorBatch) : List String :=
  (results.filterMap VendorBatch.response).flatten

/-- From `__main__` (main.py line 39):
`malicious_urls = list(set(google_malicious_urls + yandex_malicious_urls))`. -/
def malicious_urls (google yandex : List String) : List String :=
  (google ++ yandex).dedup

theorem mem_vendorVerdicts (x : String) (results : List VendorBatch) :
    x ∈ vendorVerdicts results ↔
      ∃ vb ∈ results, ∃ flagged, vb.response = some flagged ∧ x ∈ flagged := by
  simp only [vendorVerdicts, List.mem_flatten, List.mem_filterMap]
  constructor
  · rintro ⟨l, ⟨vb, hvb, hresp⟩, hx⟩
    exact ⟨vb, hvb, l, hresp, hx⟩
  · rintro ⟨vb, hvb, flagged, hresp, hx⟩
    exact ⟨flagged, ⟨vb, hvb, hresp⟩, hx⟩

/-- C4: the final malicious list is exactly the deduplicated union of the two
vendor verdict lists — as a set it is their union, it repeats no hostname,
and a hostname is in it precisely when some successful batch of one of the
two vendors flagged it, so candidates of a failed batch are excluded rather
than assumed malicious. -/
theorem c4_union_of_vendor_verdicts (v1 v2 : List VendorBatch) :
    (malicious_urls (vendorVerdicts v1) (vendorVerdicts v2)).toFinset =
        (vendorVerdicts v1).toFinset ∪ (vendorVerdicts v2).toFinset ∧
    (malicious_urls (vendorVerdicts v1) (vendorVerdicts v2)).Nodup ∧
    (∀ x, x ∈ malicious_urls (vendorVerdicts v1) (vendorVerdicts v2) ↔
      ((∃ vb ∈ v1, ∃ flagged, vb.response = some flagged ∧ x ∈ flagged) ∨
       (∃ vb ∈ v2, ∃ flagged, vb.response = some flagged ∧ x ∈ flagged))) := by
  refine ⟨?_, ?_, ?_⟩
  · ext x
    simp [malicious_urls, List.mem_dedup]
  · exact List.nodup_dedup _
  · intro x
    rw [malicious_urls, List.mem_dedup, List.mem_append,
      mem_vendorVerdicts, mem_vendorVerdicts]

/-- C6: every hostname in the final malicious output appeared in the original
candidate set, provided each vendor batch draws from the candidates and each
response flags a subset of its batch — the pipeline invents no hostnames. -/
theorem c6_no_invention (candidates : List String) (v1 v2 : List VendorBatch)
    (hflag : ∀ vb ∈ v1 ++ v2, ∀ x ∈ vb.response.getD [], x ∈ vb.batch)
    (hbatch : ∀ vb ∈ v1 ++ v2, ∀ x ∈ vb.batch, x ∈ candidates) :
    malicious_urls (vendorVerdicts v1) (vendorVerdicts v2) ⊆ candidates := by
  intro x hx
  rw [malicious_urls, List.mem_dedup, List.mem_append] at hx
  have hmem : ∃ vb ∈ v1 ++ v2, ∃ flagged, vb.response = some flagged ∧ x ∈ flagged := by
    rcases hx with hx | hx
    · rcases (mem_vendorVerdicts x v1).mp hx with ⟨vb, hvb, flagged, hresp, hxf⟩
      exact ⟨vb, List.mem_append_left _ hvb, flagged, hresp, hxf⟩
    · rcases (mem_vendorVerdicts x v2).mp hx with ⟨vb, hvb, flagged, hresp, hxf⟩
      exact ⟨vb, List.mem_append_right _ hvb, flagged, hresp, hxf⟩
  rcases hmem with ⟨vb, hvb, flagged, hresp, hxf⟩
  have hxb : x ∈ vb.batch := by
    have := hflag vb hvb x
    rw [hresp] at this
    exact this hxf
  exact hbatch vb hvb x hxb

theorem c6_no_invention_witness :
    malicious_urls (vendorVerdicts [⟨["a", "b", "c"], some ["a"]⟩])
        (vendorVerdicts [⟨["a", "b"], some ["b"]⟩, ⟨["c"], none⟩]) ⊆
      ["a", "b", "c"] :=
  c6_no_invention ["a", "b", "c"] [⟨["a", "b", "c"], some ["a"]⟩]
    [⟨["a", "b"], some ["b"]⟩, ⟨["c"], none⟩] (by decide) (by decide)

/-- Modelled from the spec: the blocklists folder constant
`BLOCKLISTS_FOLDER` of the file-writer collaborator (modules/filewriter.py,
not under src/). Its value never matters to the claims below. -/
def BLOCKLISTS_FOLDER : String := "blocklists"

/-- From `upload_blocklists` (github.py line 34): the uploaded file name
`f"{vendor}_{original_filename.split('_')[1]}{f'_{suffix}' if suffix else ''}.txt"`.
`none` models the `IndexError` when the original filename has no underscore;
an empty suffix is falsy in the f-string and appends nothing. -/
def targetName (vendor : String) (suffix : Option String) (original : String) :
    Option String :=
  match (splitOnChar '_' original.data)[1]? with
  | none => none
  | some mid =>
    some (vendor ++ "_" ++ String.mk mid ++
      (match suffix with
       | some s => if s = "" then "" else "_" ++ s
       | none => "") ++ ".txt")

/-- Failure conditions of the body of `upload_blocklists`: the `IndexError`
of the filename comprehension, the `KeyError` of a missing dotenv key, the
`ValueError` raised for a none-valued key, a file-read failure, and any
failure of the remote repository operations. -/
inductive UploadErr where
  | indexError | keyError | valueError | ioError | githubError
  deriving DecidableEq

/-- Environment of one `upload_blocklists` call: the dotenv table (outer
`none` is an absent key raising `KeyError`; `some none` a key present with a
`None` value), the file reader, whether the remote repository operations
succeed, and the current content of each path on the remote main branch
(`none` when absent). The last two model the semantics of the external
`github` library: `repo.compare` between main and the new commit reports
exactly the committed paths whose content differs from what main holds. -/
structure UploadEnv where
  dotenv : String → Option (Option String)
  readFile : String → Except UploadErr String
  repoAvailable : Bool
  mainContent : String → Option String

/-- Observable result of the successful path of `upload_blocklists`. -/
structure UploadResult where
  elementList : List (String × String)
  filesChanged : List (String × String)
  pushed : Bool
  deriving DecidableEq

/-- From `upload_blocklists` (github.py lines 52-77): keep only non-empty
file contents as tree elements; create a commit and compare only when some
element exists; push (move the main ref) only when the comparison reports
changed files. -/
def uploadCore (fileNames datas : List String)
    (mainContent : String → Option String) : UploadResult :=
  let elementList := (fileNames.zip datas).filter (fun e => !(e.2 == ""))
  let filesChanged :=
    if elementList.isEmpty then []
    else elementList.filter (fun e => !(mainContent e.1 == some e.2))
  ⟨elementList, filesChanged, !elementList.isEmpty && !filesChanged.isEmpty⟩

/-- Body of the `try` block of `upload_blocklists` (github.py lines 31-77),
in source order: build the path list and upload names, read the two dotenv
keys, raise `ValueError` on a `None` value, perform the remote repository
operations, read each file, then run the commit-and-push logic. -/
def uploadBody (vendor : String) (blocklist_filenames : List String)
    (suffix : Option String) (env : UploadEnv) : Except UploadErr UploadResult := do
  let pathList := blocklist_filenames.map (fun f => BLOCKLISTS_FOLDER ++ "/" ++ f)
  let fileNames ← blocklist_filenames.mapM (fun f =>
    match targetName vendor suffix f with
    | some n => Except.ok n
    | none => Except.error UploadErr.indexError)
  let accessTokenVal ← (match env.dotenv "GITHUB_ACCESS_TOKEN" with
    | none => Except.error UploadErr.keyError
    | some v => Except.ok v)
  let repoNameVal ← (match env.dotenv "BLOCKLIST_REPOSITORY_NAME" with
    | none => Except.error UploadErr.keyError
    | some v => Except.ok v)
  if accessTokenVal = none then Except.error UploadErr.valueError
  else if repoNameVal = none then Except.error UploadErr.valueError
  else if !env.repoAvailable then Except.error UploadErr.githubError
  else do
    let datas ← pathList.mapM env.readFile
    pure (uploadCore fileNames datas env.mainContent)

/-- What a call of `upload_blocklists` does as seen by its caller: return
normally (recording whether the failure log was written and whether a push
happened), or propagate an exception. -/
inductive UploadOutcome where
  | returned (loggedFailure : Bool) (pushed : Bool)
  | raised (e : UploadErr)
  deriving DecidableEq

/-- From `upload_blocklists` (github.py lines 31-80): the whole body runs
inside `try`; `except Exception` logs the failure and falls off the end of
the function. -/
def upload_blocklists (vendor : String) (blocklist_filenames : List String)
    (suffix : Option String) (env : UploadEnv) : UploadOutcome :=
  match uploadBody vendor blocklist_filenames suffix env with
  | Except.ok r => UploadOutcome.returned false r.pushed
  | Except.error _ => UploadOutcome.returned true false

theorem uploadCore_elementList (fileNames datas : List String)
    (mainContent : String → Option String) :
    (uploadCore fileNames datas mainContent).elementList =
      (fileNames.zip datas).filter (fun e => !(e.2 == "")) := rfl

theorem uploadCore_filesChanged (fileNames datas : List String)
    (mainContent : String → Option String) :
    (uploadCore fileNames datas mainContent).filesChanged =
      (if (uploadCore fileNames datas mainContent).elementList.isEmpty then []
       else (uploadCore fileNames datas mainContent).elementList.filter
         (fun e => !(mainContent e.1 == some e.2))) := rfl

theorem uploadCore_pushed (fileNames datas : List String)
    (mainContent : String → Option String) :
    (uploadCore fileNames datas mainContent).pushed =
      (!(uploadCore fileNames datas mainContent).elementList.isEmpty &&
        !(uploadCore fileNames datas mainContent).filesChanged.isEmpty) := rfl

/-- C9: the commit tree never contains an empty file; a push happens only
when some committed file differs from the content on main; and when nothing
differs, or every file is empty, no push to main occurs. -/
theorem c9_push_discipline (fileNames datas : List String)
    (mainContent : String → Option String) :
    (∀ e ∈ (uploadCore fileNames datas mainContent).elementList, e.2 ≠ "") ∧
    ((uploadCore fileNames datas mainContent).pushed = true →
      ∃ e ∈ (uploadCore fileNames datas mainContent).elementList,
        e.2 ≠ "" ∧ mainContent e.1 ≠ some e.2) ∧
    ((∀ e ∈ (uploadCore fileNames datas mainContent).elementList,
        mainContent e.1 = some e.2) →
      (uploadCore fileNames datas mainContent).pushed = false) ∧
    ((∀ d ∈ datas, d = "") →
      (uploadCore fileNames datas mainContent).pushed = false) := by
  refine ⟨?_, ?_, ?_, ?_⟩
  · intro e he
    rw [uploadCore_elementList] at he
    simpa using (List.mem_filter.mp he).2
  · intro hp
    rw [uploadCore_pushed, Bool.and_eq_true, Bool.not_eq_true',
      Bool.not_eq_true'] at hp
    obtain ⟨hne, hfc⟩ := hp
    rw [uploadCore_filesChanged, if_neg (by simp [hne])] at hfc
    obtain ⟨e, hemem⟩ := List.isEmpty_eq_false_iff_exists_mem.mp hfc
    obtain ⟨hel, hchanged⟩ := List.mem_filter.mp hemem
    refine ⟨e, hel, ?_, by simpa using hchanged⟩
    rw [uploadCore_elementList] at hel
    simpa using (List.mem_filter.mp hel).2
  · intro hall
    rw [uploadCore_pushed]
    by_cases hE : (uploadCore fileNames datas mainContent).elementList.isEmpty
    · simp [hE]
    · have hfc : (uploadCore fileNames datas mainContent).filesChanged =
          (uploadCore fileNames datas mainContent).elementList.filter
            (fun e => !(mainContent e.1 == some e.2)) := by
        rw [uploadCore_filesChanged, if_neg hE]
      have hnil : (uploadCore fileNames datas mainContent).elementList.filter
          (fun e => !(mainContent e.1 == some e.2)) = [] := by
        rw [List.filter_eq_nil_iff]
        intro e he
        simp [hall e he]
      simp [hfc, hnil]
  · intro hall
    have hnil : (uploadCore fileNames datas mainContent).elementList = [] := by
      rw [uploadCore_elementList, List.filter_eq_nil_iff]
      intro e he
      obtain ⟨a, b⟩ := e
      have hb : b ∈ datas := (List.of_mem_zip he).2
      simp [hall b hb]
    rw [uploadCore_pushed, hnil]
    simp

/-- C10: no exception of a file read, dotenv lookup, filename transform or
remote repository operation escapes `upload_blocklists`: for every
environment the call returns normally, and whenever the body fails the
function returns having logged the failure and pushed nothing. -/
theorem c10_no_exception_escapes (vendor : String)
    (blocklist_filenames : List String) (suffix : Option String)
    (env : UploadEnv) :
    (∃ loggedFailure pushed,
      upload_blocklists vendor blocklist_filenames suffix env =
        UploadOutcome.returned loggedFailure pushed) ∧
    (∀ e, uploadBody vendor blocklist_filenames suffix env = Except.error e →
      upload_blocklists vendor blocklist_filenames suffix env =
        UploadOutcome.returned true false) := by
  constructor
  · cases h : uploadBody vendor blocklist_filenames suffix env with
    | ok r => exact ⟨false, r.pushed, by simp [upload_blocklists, h]⟩
    | error e => exact ⟨true, false, by simp [upload_blocklists, h]⟩
  · intro e he
    simp [upload_blocklists, he]
